import Mathlib

/-!
Verification development for the `(s,S)` inventory-policy module `pyinv/ss.py`
of the stockpyl repository.  The two functions under study are
`s_s_cost_discrete` (exact renewal-reward cost of a given `(s,S)` pair) and
`s_s_discrete_exact` (bracket-and-expand search for the optimal pair).

Modelling conventions:
* Python floats are modelled by `ℚ` (exact arithmetic on the rational inputs
  the theorems use).
* The newsvendor collaborators (`newsvendor_poisson`, `newsvendor_poisson_cost`,
  `newsvendor_discrete`) and `scipy.stats.poisson.pmf` live outside the module
  and are treated as black boxes: the embedding is parameterised over a
  structure `NvExt` bundling them, exactly as the specification treats them
  as external interfaces.
* Python exceptions are modelled by `Except PyErr`; loops are run on fuel and
  fuel exhaustion is a distinguished marker standing for non-termination.
-/

set_option linter.unusedVariables false

namespace Stockpyl

attribute [local semireducible] Rat.mul Rat.add Rat.sub Rat.inv

/-- Exception kinds observable from the embedded code, together with the error
kinds that the specification names but the source never raises (they are
included so that claims mentioning them can be stated).  `validationError` is
the Python `AssertionError` raised by the parameter-checking asserts, which is
the kind the specification calls `ValidationError`.  `fuel` marks a loop that
is still running when the fuel of the embedding runs out, i.e. a loop with no
iteration bound in the source. -/
inductive PyErr where
  | validationError
  | typeError
  | valueError
  | indexError
  | zeroDivisionError
  | fuel
  | numericalDomainError
  | configurationError
  | algorithmError
  deriving DecidableEq, Repr

/-- A Python value that can sit in the `demand_hi` argument slot.  The source
normally passes an integer there, but `s_s_discrete_exact` (line 256-258)
passes the pmf dictionary positionally into this slot, so the embedding keeps
both possibilities. -/
inductive PyObj where
  | int (n : ℤ)
  | dict (entries : List ℚ)
  deriving DecidableEq, Repr

/-- The external collaborators of `ss.py`, consumed as black boxes:
`pmf μ k` is `scipy.stats.poisson.pmf(k, μ)` (the mean is kept as an
`Option ℚ` because the source may forward `demand_mean = None` to scipy);
`nv_cost y h p μ` is `newsvendor_poisson_cost(y, h, p, μ)`;
`nv_opt h p μ` is `newsvendor_poisson(h, p, μ)`;
`nvd_cost h p d y` is `newsvendor_discrete(h, p, demand_pmf=d, base_stock_level=y)[1]`;
`nvd_opt h p d` is `newsvendor_discrete(h, p, demand_pmf=d)`.
A pmf dictionary `{0: q0, 1: q1, ...}` with keys `0..n-1` is represented by
the list of its values in key order. -/
structure NvExt where
  pmf : Option ℚ → ℕ → ℚ
  nv_cost : ℤ → ℚ → ℚ → Option ℚ → ℚ
  nv_opt : ℚ → ℚ → Option ℚ → ℤ × ℚ
  nvd_cost : ℚ → ℚ → List ℚ → ℤ → ℚ
  nvd_opt : ℚ → ℚ → List ℚ → ℤ × ℚ

/-- The parameter-checking asserts shared by `s_s_cost_discrete` (lines
97-107) and `s_s_discrete_exact` (lines 211-219), in source order.  The
`is_integer` asserts on the reorder point and order-up-to level are vacuous
here because the embedding types them as `ℤ`.  A failing `assert` raises
`AssertionError`, modelled as `.validationError`.  Comparing the `demand_hi`
slot with an integer (`demand_hi >= 0`, `demand_hi + 1`) raises `TypeError`
in Python 3 when that slot holds a dictionary, and `None + 1` also raises
`TypeError`; both are modelled faithfully. -/
def meanBad (mean : Option ℚ) : Bool :=
  match mean with
  | some μ => decide (μ < 0)
  | none => false

def checkParams (h p fc : ℚ) (mean : Option ℚ) (hi : Option PyObj)
    (pmf : Option (List ℚ)) : Except PyErr Unit :=
  if h ≤ 0 then .error .validationError
  else if p ≤ 0 then .error .validationError
  else if fc ≤ 0 then .error .validationError
  else if meanBad mean then .error .validationError
  else
    match hi with
    | some (.dict _) => .error .typeError
    | some (.int n) =>
      if n < 0 then .error .validationError
      else
        match pmf with
        | none => .ok ()
        | some l => if (l.length : ℤ) = n + 1 then .ok () else .error .validationError
    | none =>
      match pmf with
      | none => .ok ()
      | some _ => .error .typeError

/-- List indexing with Python semantics: out-of-range access raises
`IndexError`. -/
def accL (l : List ℚ) (k : ℕ) : Except PyErr ℚ :=
  if k < l.length then .ok (l.getD k 0) else .error .indexError

/-- A run of `c` terms of the sum `np.sum([pmf[l] * m[j-l] for l in range(1, j+1)])`
from line 120 over an explicit pmf list, starting at subscript `i`: the
comprehension touches the pmf subscripts in increasing order and the first
out-of-range access raises `IndexError`.  At the time the entry of index `j`
is computed, `ms` holds the entries `m[0..j-1]`. -/
def sumTerms (l ms : List ℚ) (j : ℕ) : ℕ → ℕ → Except PyErr ℚ
  | _, 0 => .ok 0
  | i, c + 1 =>
    match accL l i with
    | .error e => .error e
    | .ok pl =>
      match sumTerms l ms j (i + 1) c with
      | .error e => .error e
      | .ok rest => .ok (pl * ms.getD (j - i) 0 + rest)

/-- The full sum of line 120 for entry `j`: subscripts `1..j`. -/
def mSumE (l ms : List ℚ) (j : ℕ) : Except PyErr ℚ :=
  sumTerms l ms j 1 j

/-- The loop of lines 119-120 over an explicit pmf list: starting from
`[m 0]`, append `m j = m 0 * Σ_{l=1..j} pmf[l] * m[j-l]` for `j = 1, 2, ...`.
`mLoopE l m0 c` is the array after `c` loop iterations, so the full loop of
the source is `mLoopE l m0 (K-1)` for horizon `K`. -/
def mLoopE (l : List ℚ) (m0 : ℚ) : ℕ → Except PyErr (List ℚ)
  | 0 => .ok [m0]
  | j + 1 =>
    match mLoopE l m0 j with
    | .error e => .error e
    | .ok ms =>
      match mSumE l ms (j + 1) with
      | .error e => .error e
      | .ok sm => .ok (ms ++ [m0 * sm])

/-- The same loop over a total pmf (the Poisson branch: line 112 precomputes
`poisson.pmf(range(K), mean)` and every index the loop touches is in range,
so no exception can occur and the computation is pure). -/
def mLoopP (pp : ℕ → ℚ) (m0 : ℚ) : ℕ → List ℚ
  | 0 => [m0]
  | j + 1 =>
    mLoopP pp m0 j ++
      [m0 * ∑ i ∈ Finset.range (j + 1), pp (i + 1) * (mLoopP pp m0 j).getD (j - i) 0]

/-- The loop of lines 126-128: `M[0] = 0` and `M[j] = M[j-1] + m[j-1]`.
`MLoop m c` is the array after `c` iterations; the source runs it up to
`j = K`, i.e. `MLoop m K` has `K+1` entries.  All indices are in range, so
the computation is pure. -/
def MLoop (m : List ℚ) : ℕ → List ℚ
  | 0 => [0]
  | j + 1 => MLoop m j ++ [(MLoop m j).getD j 0 + m.getD j 0]

/-- The pmf dictionary `{n: demand_pmf[n] for n in range(k)}` built for the
`newsvendor_discrete` collaborator (line 143 uses `k = demand_hi`; line 226
of the search uses `k = demand_hi + 1`), represented as the list of its
values for keys `0..k-1`.  Every use site has `k ≤ demand_pmf.length`, so
the subscript cannot fail there and total access is faithful. -/
def pmfDict (l : List ℚ) (k : ℕ) : List ℚ :=
  (List.range k).map fun i => l.getD i 0

/-- The Poisson branch of `s_s_cost_discrete` after parameter checking:
lines 110-147 with `use_poisson = True`.  `K < 0` makes `np.zeros(K)` raise
`ValueError`; `K = 0` makes `pmf[0]` on the empty precomputed pmf array raise
`IndexError`.  The division `1.0 / (1 - pmf[0])` acts on a numpy float and
therefore never raises; the theorems below only visit inputs with
`pmf 0 < 1`, where rational division is faithful to the float semantics. -/
def poissonCost (ext : NvExt) (s S : ℤ) (h p fc : ℚ) (mean : Option ℚ) : Except PyErr ℚ :=
  if S - s < 0 then .error .valueError
  else if S - s = 0 then .error .indexError
  else
    .ok ((fc + ∑ d ∈ Finset.range (S - s).toNat,
        (mLoopP (ext.pmf mean) (1 / (1 - ext.pmf mean 0)) ((S - s).toNat - 1)).getD d 0 *
          ext.nv_cost (S - d) h p mean) /
      (MLoop (mLoopP (ext.pmf mean) (1 / (1 - ext.pmf mean 0)) ((S - s).toNat - 1))
          (S - s).toNat).getD (S - s).toNat 0)

/-- The explicit-pmf branch of `s_s_cost_discrete` after parameter checking:
lines 110-147 with `use_poisson = False`.  Order of failures, as in the
source: `np.zeros(K)` raises `ValueError` for `K < 0`; `pmf[0]` raises
`TypeError` when `demand_pmf` is `None` and `IndexError` on an empty list;
the pure-Python division `1.0 / (1 - pmf[0])` raises `ZeroDivisionError`
when `pmf[0] = 1`; storing into `m[0]` raises `IndexError` when `K = 0`;
the `m` loop raises `IndexError` at the first pmf subscript past the end of
the list; the cost loop then consults the collaborator with the dictionary
over keys `0..demand_hi-1` (line 143) and a non-integer `demand_hi` would
raise `TypeError` in `range` (unreachable: the asserts already require an
integer there when `demand_pmf` is a list). -/
def explicitCost (ext : NvExt) (s S : ℤ) (h p fc : ℚ) (hi : Option PyObj)
    (pmf : Option (List ℚ)) : Except PyErr ℚ :=
  if S - s < 0 then .error .valueError
  else
    match pmf with
    | none => .error .typeError
    | some l =>
      if l.length = 0 then .error .indexError
      else if l.getD 0 0 = 1 then .error .zeroDivisionError
      else if S - s = 0 then .error .indexError
      else
        match mLoopE l (1 / (1 - l.getD 0 0)) ((S - s).toNat - 1) with
        | .error e => .error e
        | .ok m =>
          match hi with
          | some (.int n) =>
            .ok ((fc + ∑ d ∈ Finset.range (S - s).toNat,
                m.getD d 0 * ext.nvd_cost h p (pmfDict l n.toNat) (S - d)) /
              (MLoop m (S - s).toNat).getD (S - s).toNat 0)
          | _ => .error .typeError

/-- The function `s_s_cost_discrete(reorder_point, order_up_to_level,
holding_cost, stockout_cost, fixed_cost, use_poisson, demand_mean, demand_hi,
demand_pmf)` (lines 30-147): parameter asserts, then the branch selected by
`use_poisson`. -/
def s_s_cost_discrete (ext : NvExt) (s S : ℤ) (h p fc : ℚ) (up : Bool)
    (mean : Option ℚ) (hi : Option PyObj) (pmf : Option (List ℚ)) : Except PyErr ℚ :=
  match checkParams h p fc mean hi pmf with
  | .error e => .error e
  | .ok _ =>
    if up then poissonCost ext s S h p fc mean
    else explicitCost ext s S h p fc hi pmf

/-- The single-period cost `g` consulted by the search loops of
`s_s_discrete_exact`: `newsvendor_poisson_cost(y, h, p, mean)` in the Poisson
branch (lines 239, 265, 280, 291, 307) and
`newsvendor_discrete(h, p, demand_pmf=demand_pmf_dict, base_stock_level=y)[1]`
in the explicit branch (lines 242-244, 267-269, 283-285, 294-296, 310-312),
where `dict` is the full dictionary built on line 226. -/
def gOne (ext : NvExt) (up : Bool) (h p : ℚ) (mean : Option ℚ) (dict : List ℚ) (y : ℤ) : ℚ :=
  if up then ext.nv_cost y h p mean else ext.nvd_cost h p dict y

/-- The `Find s(S0)` loop of lines 235-248: decrement `s` starting from
`y_star` until `s_s_cost_discrete(s, S0, ...) ≤ g(s)`.  A cost-call exception
propagates; the loop has no iteration bound in the source, so running out of
fuel returns the `.fuel` marker. -/
def bracketLoop (ext : NvExt) (h p fc : ℚ) (up : Bool) (mean : Option ℚ)
    (hi : Option PyObj) (pmf : Option (List ℚ)) (dict : List ℚ) (S0 : ℤ) :
    ℤ → ℕ → Except PyErr ℤ
  | _, 0 => .error .fuel
  | s, f + 1 =>
    let s1 := s - 1
    let gs := gOne ext up h p mean dict s1
    match s_s_cost_discrete ext s1 S0 h p fc up mean hi pmf with
    | .error e => .error e
    | .ok c =>
      if c ≤ gs then .ok s1
      else bracketLoop ext h p fc up mean hi pmf dict S0 s1 f

/-- The inner `s`-advance loop of lines 279-296: while
`s_s_cost_discrete(s, S_hat, ...) ≤ g(s+1)`, increment `s`. -/
def sAdvance (ext : NvExt) (h p fc : ℚ) (up : Bool) (mean : Option ℚ)
    (hi : Option PyObj) (pmf : Option (List ℚ)) (dict : List ℚ) (Shat : ℤ) :
    ℤ → ℕ → Except PyErr ℤ
  | _, 0 => .error .fuel
  | s, f + 1 =>
    let gs := gOne ext up h p mean dict (s + 1)
    match s_s_cost_discrete ext s Shat h p fc up mean hi pmf with
    | .error e => .error e
    | .ok c =>
      if c ≤ gs then sAdvance ext h p fc up mean hi pmf dict Shat (s + 1) f
      else .ok s

/-- The `Loop through S values` of lines 260-312: while `g(S) ≤ g_hat`, test
`s_s_cost_discrete(s_hat, S, ...) < g_hat`; on improvement set
`S_hat := S`, advance `s` with `sAdvance`, recompute the incumbent cost, and
in every case move to `S + 1`.  On exit return the incumbent
`(s_hat, S_hat, g_hat)`. -/
def expandLoop (ext : NvExt) (h p fc : ℚ) (up : Bool) (mean : Option ℚ)
    (hi : Option PyObj) (pmf : Option (List ℚ)) (dict : List ℚ) (fuelInner : ℕ) :
    ℤ → ℤ → ℤ → ℚ → ℤ → ℕ → Except PyErr (ℤ × ℤ × ℚ)
  | _, _, _, _, _, 0 => .error .fuel
  | s, shat, Shat, ghat, S, f + 1 =>
    let gS := gOne ext up h p mean dict S
    if gS ≤ ghat then
      match s_s_cost_discrete ext shat S h p fc up mean hi pmf with
      | .error e => .error e
      | .ok c =>
        if c < ghat then
          match sAdvance ext h p fc up mean hi pmf dict S s fuelInner with
          | .error e => .error e
          | .ok s2 =>
            match s_s_cost_discrete ext s2 S h p fc up mean hi pmf with
            | .error e => .error e
            | .ok g2 => expandLoop ext h p fc up mean hi pmf dict fuelInner s2 s2 S g2 (S + 1) f
        else expandLoop ext h p fc up mean hi pmf dict fuelInner s shat Shat ghat (S + 1) f
    else .ok (shat, Shat, ghat)

/-- The function `s_s_discrete_exact(holding_cost, stockout_cost, fixed_cost,
use_poisson, demand_mean, demand_hi, demand_pmf)` (lines 150-318): parameter asserts,
initial order-up-to level `y_star` from the external single-period optimizer
(line 222-228; the explicit branch first builds the full pmf dictionary over
`range(demand_hi + 1)`, raising `TypeError` when `demand_hi` is not an
integer or `demand_pmf` is `None`), the bracket loop, then the initial
incumbent cost of lines 256-258 — whose call passes `demand_pmf_dict`
positionally in the `demand_hi` slot and nothing in the `demand_pmf` slot —
and finally the expansion loop started at `S = S_hat + 1`. -/
def s_s_discrete_exact (ext : NvExt) (h p fc : ℚ) (up : Bool) (mean : Option ℚ)
    (hi : Option PyObj) (pmf : Option (List ℚ)) (fuel : ℕ) : Except PyErr (ℤ × ℤ × ℚ) :=
  match checkParams h p fc mean hi pmf with
  | .error e => .error e
  | .ok _ =>
    let pre : Except PyErr (List ℚ × ℤ × Option PyObj) :=
      if up then .ok ([], (ext.nv_opt h p mean).1, none)
      else
        match hi with
        | some (.int n) =>
          match pmf with
          | some l =>
            let dict := pmfDict l (n + 1).toNat
            .ok (dict, (ext.nvd_opt h p dict).1, some (.dict dict))
          | none => .error .typeError
        | _ => .error .typeError
    match pre with
    | .error e => .error e
    | .ok (dict, ystar, hiArg) =>
      match bracketLoop ext h p fc up mean hi pmf dict ystar ystar fuel with
      | .error e => .error e
      | .ok s0 =>
        match s_s_cost_discrete ext s0 ystar h p fc up mean hiArg none with
        | .error e => .error e
        | .ok g0 =>
          expandLoop ext h p fc up mean hi pmf dict fuel s0 s0 ystar g0 (ystar + 1) fuel

/-- Modelled from the spec (section 3, RenewalArrays): the renewal density
written exactly as the specification states it, `m 0 = 1/(1 - pmf 0)` and
`m j = m 0 * Σ_{l=1..j} pmf l * m (j - l)` for `j ≥ 1`, as a standalone
recursion to compare with the arrays the source builds. -/
def spec_m (pp : ℕ → ℚ) : ℕ → ℚ
  | 0 => 1 / (1 - pp 0)
  | j + 1 => spec_m pp 0 * ∑ i ∈ (Finset.range (j + 1)).attach, pp (i.1 + 1) * spec_m pp (j - i.1)
termination_by j => j
decreasing_by
  · exact Nat.succ_pos j
  · exact Nat.lt_succ_of_le (Nat.sub_le j i.1)

/-- Modelled from the spec (section 3, RenewalArrays): the renewal function,
`M 0 = 0` and `M j = M (j-1) + m (j-1)`. -/
def spec_M (pp : ℕ → ℚ) : ℕ → ℚ
  | 0 => 0
  | j + 1 => spec_M pp j + spec_m pp j

/-- Modelled from the spec (section 4.3, CostEvaluator): with `K = S - s`,
`total = fixed_cost + Σ_{d=0}^{K-1} m d * single_period_cost (S - d)` and the
returned value is `total / M K`. -/
def spec_policy_cost (pp : ℕ → ℚ) (g : ℤ → ℚ) (s S : ℤ) (fc : ℚ) : ℚ :=
  let K := (S - s).toNat
  (fc + ∑ d ∈ Finset.range K, spec_m pp d * g (S - d)) / spec_M pp K

/-- A trivial collaborator bundle whose functions all return zero, used to
evaluate the module on concrete inputs where the collaborator values do not
matter. -/
def extZ : NvExt where
  pmf := fun _ _ => 0
  nv_cost := fun _ _ _ _ => 0
  nv_opt := fun _ _ _ => (0, 0)
  nvd_cost := fun _ _ _ _ => 0
  nvd_opt := fun _ _ _ => (0, 0)

/-- A concrete well-behaved Poisson-branch collaborator bundle: a geometric
pmf standing for the external Poisson pmf, the quasi-convex single-period
cost `g y = |y - 1|` with minimizer `y_star = 1`, and an optimizer returning
that minimizer. -/
def ext1 : NvExt where
  pmf := fun _ k => (1 / 2) ^ (k + 1)
  nv_cost := fun y _ _ _ => ((y - 1).natAbs : ℚ)
  nv_opt := fun _ _ _ => (1, 0)
  nvd_cost := fun _ _ _ _ => 0
  nvd_opt := fun _ _ _ => (0, 0)

/-- A concrete well-behaved explicit-branch collaborator bundle: the
quasi-convex single-period cost `g y = |y - 1|` with minimizer `y_star = 1`. -/
def ext1e : NvExt where
  pmf := fun _ _ => 0
  nv_cost := fun _ _ _ _ => 0
  nv_opt := fun _ _ _ => (0, 0)
  nvd_cost := fun _ _ _ y => ((y - 1).natAbs : ℚ)
  nvd_opt := fun _ _ _ => (1, 0)

/-- A malformed Poisson-branch collaborator bundle: the single-period cost is
`0` everywhere except the isolated spike `g 1 = 5`, which violates
quasi-convexity (its 0-sublevel set has a hole at 1), and the optimizer
reports the minimizer `0`.  Against it the bracket loop of
`s_s_discrete_exact` never meets its stopping condition, because every policy
cost is strictly positive while `g` vanishes on the values the loop visits. -/
def ext0 : NvExt where
  pmf := fun _ k => (1 / 2) ^ (k + 1)
  nv_cost := fun y _ _ _ => if y = 1 then 5 else 0
  nv_opt := fun _ _ _ => (0, 0)
  nvd_cost := fun _ _ _ _ => 0
  nvd_opt := fun _ _ _ => (0, 0)

section RenewalLemmas

theorem mLoopP_length (pp : ℕ → ℚ) (m0 : ℚ) : ∀ j, (mLoopP pp m0 j).length = j + 1 := by
  intro j
  induction j with
  | zero => rfl
  | succ j ih => simp [mLoopP, ih]

theorem mLoopP_getD_stable (pp : ℕ → ℚ) (m0 : ℚ) (i j : ℕ) (hij : i ≤ j) :
    (mLoopP pp m0 (j + 1)).getD i 0 = (mLoopP pp m0 j).getD i 0 := by
  show ((mLoopP pp m0 j) ++ _).getD i 0 = _
  rw [List.getD_append]
  rw [mLoopP_length]
  omega

theorem mLoopP_getD_le (pp : ℕ → ℚ) (m0 : ℚ) (i j k : ℕ) (hij : i ≤ j) (hjk : j ≤ k) :
    (mLoopP pp m0 k).getD i 0 = (mLoopP pp m0 j).getD i 0 := by
  induction k with
  | zero => cases Nat.le_zero.mp hjk; rfl
  | succ k ih =>
    rcases Nat.lt_or_ge j (k + 1) with hk | hk
    · rw [mLoopP_getD_stable pp m0 i k (le_trans hij (Nat.lt_succ_iff.mp hk))]
      exact ih (Nat.lt_succ_iff.mp hk)
    · cases Nat.le_antisymm hjk hk; rfl

theorem mLoopP_getD_zero (pp : ℕ → ℚ) (m0 : ℚ) : ∀ j, (mLoopP pp m0 j).getD 0 0 = m0 := by
  intro j
  induction j with
  | zero => rfl
  | succ j ih => rw [mLoopP_getD_stable pp m0 0 j (Nat.zero_le j)]; exact ih

theorem mLoopP_getD_last (pp : ℕ → ℚ) (m0 : ℚ) (j : ℕ) :
    (mLoopP pp m0 (j + 1)).getD (j + 1) 0 =
      m0 * ∑ i ∈ Finset.range (j + 1), pp (i + 1) * (mLoopP pp m0 j).getD (j - i) 0 := by
  show ((mLoopP pp m0 j) ++ _).getD (j + 1) 0 = _
  rw [List.getD_append_right _ _ _ _ (by rw [mLoopP_length])]
  rw [mLoopP_length]
  simp

theorem MLoop_length (m : List ℚ) : ∀ j, (MLoop m j).length = j + 1 := by
  intro j
  induction j with
  | zero => rfl
  | succ j ih => simp [MLoop, ih]

theorem MLoop_getD_stable (m : List ℚ) (i j : ℕ) (hij : i ≤ j) :
    (MLoop m (j + 1)).getD i 0 = (MLoop m j).getD i 0 := by
  show ((MLoop m j) ++ _).getD i 0 = _
  rw [List.getD_append]
  rw [MLoop_length]
  omega

theorem MLoop_getD_le (m : List ℚ) (i j k : ℕ) (hij : i ≤ j) (hjk : j ≤ k) :
    (MLoop m k).getD i 0 = (MLoop m j).getD i 0 := by
  induction k with
  | zero => cases Nat.le_zero.mp hjk; rfl
  | succ k ih =>
    rcases Nat.lt_or_ge j (k + 1) with hk | hk
    · rw [MLoop_getD_stable m i k (le_trans hij (Nat.lt_succ_iff.mp hk))]
      exact ih (Nat.lt_succ_iff.mp hk)
    · cases Nat.le_antisymm hjk hk; rfl

theorem MLoop_getD_zero (m : List ℚ) : ∀ j, (MLoop m j).getD 0 0 = 0 := by
  intro j
  induction j with
  | zero => rfl
  | succ j ih => rw [MLoop_getD_stable m 0 j (Nat.zero_le j)]; exact ih

theorem MLoop_getD_last (m : List ℚ) (j : ℕ) :
    (MLoop m (j + 1)).getD (j + 1) 0 = (MLoop m j).getD j 0 + m.getD j 0 := by
  show ((MLoop m j) ++ _).getD (j + 1) 0 = _
  rw [List.getD_append_right _ _ _ _ (by rw [MLoop_length])]
  rw [MLoop_length]
  simp

end RenewalLemmas

section SpecBridge

theorem spec_m_zero (pp : ℕ → ℚ) : spec_m pp 0 = 1 / (1 - pp 0) := by
  rw [spec_m]

theorem spec_m_succ (pp : ℕ → ℚ) (j : ℕ) :
    spec_m pp (j + 1) =
      spec_m pp 0 * ∑ i ∈ Finset.range (j + 1), pp (i + 1) * spec_m pp (j - i) := by
  conv_lhs => rw [spec_m]
  rw [Finset.sum_attach (Finset.range (j + 1)) (fun x => pp (x + 1) * spec_m pp (j - x))]

theorem mLoopP_getD_spec (pp : ℕ → ℚ) (J : ℕ) :
    ∀ j, j ≤ J → (mLoopP pp (1 / (1 - pp 0)) J).getD j 0 = spec_m pp j := by
  intro j
  induction j using Nat.strong_induction_on with
  | _ j ih =>
    intro hj
    match j with
    | 0 => rw [mLoopP_getD_zero, spec_m_zero]
    | j + 1 =>
      rw [mLoopP_getD_le pp _ (j + 1) (j + 1) J le_rfl hj]
      rw [mLoopP_getD_last]
      rw [spec_m_succ, spec_m_zero]
      congr 1
      apply Finset.sum_congr rfl
      intro i hi
      congr 1
      rw [← mLoopP_getD_le pp _ (j - i) j J (Nat.sub_le j i) (Nat.le_of_succ_le hj)]
      exact ih (j - i) (Nat.lt_succ_of_le (Nat.sub_le j i)) (le_trans (Nat.sub_le j i) (Nat.le_of_succ_le hj))

theorem MLoop_getD_spec (pp : ℕ → ℚ) (J : ℕ) :
    ∀ j, j ≤ J + 1 → ∀ K, j ≤ K → (MLoop (mLoopP pp (1 / (1 - pp 0)) J) K).getD j 0 = spec_M pp j := by
  intro j
  induction j with
  | zero => intro _ K _; rw [MLoop_getD_zero]; rfl
  | succ j ih =>
    intro hj K hK
    rw [MLoop_getD_le _ (j + 1) (j + 1) K le_rfl hK]
    rw [MLoop_getD_last]
    rw [ih (Nat.le_of_succ_le hj) j le_rfl]
    rw [mLoopP_getD_spec pp J j (Nat.lt_succ_iff.mp hj)]
    rfl

theorem mLoopP_getD_nonneg (pp : ℕ → ℚ) (m0 : ℚ) (hpp : ∀ k, 0 ≤ pp k) (hm0 : 0 ≤ m0) :
    ∀ j i, 0 ≤ (mLoopP pp m0 j).getD i 0 := by
  intro j
  induction j with
  | zero =>
    intro i
    match i with
    | 0 => exact hm0
    | i + 1 => simp [mLoopP]
  | succ j ih =>
    intro i
    rcases Nat.lt_or_ge i (j + 1) with hij | hij
    · rw [mLoopP_getD_stable pp m0 i j (Nat.lt_succ_iff.mp hij)]
      exact ih i
    · rcases Nat.eq_or_lt_of_le hij with hij2 | hij2
      · rw [← hij2, mLoopP_getD_last]
        apply mul_nonneg hm0
        apply Finset.sum_nonneg
        intro t _
        exact mul_nonneg (hpp (t + 1)) (ih (j - t))
      · rw [List.getD_eq_default]
        rw [mLoopP_length]
        omega

theorem MLoop_getD_K_pos (m : List ℚ) (m0 : ℚ) (hm0 : 0 < m0) (hm : ∀ i, 0 ≤ m.getD i 0)
    (h0 : m.getD 0 0 = m0) : ∀ K, 1 ≤ K → 0 < (MLoop m K).getD K 0 := by
  intro K
  induction K with
  | zero => omega
  | succ K ih =>
    intro _
    rw [MLoop_getD_last]
    rcases Nat.eq_zero_or_pos K with hK | hK
    · subst hK
      rw [MLoop_getD_zero, h0]
      linarith
    · have := ih hK
      have := hm K
      linarith

end SpecBridge

section ExplicitBridge

theorem sumTerms_ok (l ms : List ℚ) (j : ℕ) :
    ∀ c i, i + c ≤ l.length →
      sumTerms l ms j i c =
        .ok (∑ t ∈ Finset.range c, l.getD (i + t) 0 * ms.getD (j - (i + t)) 0) := by
  intro c
  induction c with
  | zero =>
    intro i _
    rw [show sumTerms l ms j i 0 = .ok 0 from rfl, Finset.sum_range_zero]
  | succ c ih =>
    intro i hi
    have hacc : accL l i = .ok (l.getD i 0) := by
      rw [accL, if_pos (by omega)]
    have hrec := ih (i + 1) (by omega)
    rw [sumTerms, hacc, hrec]
    rw [Finset.sum_range_succ' (fun t => l.getD (i + t) 0 * ms.getD (j - (i + t)) 0) c]
    show Except.ok _ = Except.ok _
    congr 1
    rw [add_comm]
    congr 1
    · apply Finset.sum_congr rfl
      intro t _
      have h3 : i + (t + 1) = i + 1 + t := by omega
      rw [h3]

theorem sumTerms_oob (l ms : List ℚ) (j : ℕ) :
    ∀ c i, l.length < i + c → 1 ≤ c → sumTerms l ms j i c = .error .indexError := by
  intro c
  induction c with
  | zero => intro i h1 h2; omega
  | succ c ih =>
    intro i hi _
    rcases Nat.lt_or_ge i l.length with hil | hil
    · have hacc : accL l i = .ok (l.getD i 0) := by rw [accL, if_pos hil]
      rw [sumTerms, hacc, ih (i + 1) (by omega) (by omega)]
    · have hacc : accL l i = .error .indexError := by rw [accL, if_neg (by omega)]
      rw [sumTerms, hacc]

theorem mLoopE_ok (l : List ℚ) (m0 : ℚ) :
    ∀ j, j < l.length → mLoopE l m0 j = .ok (mLoopP (fun k => l.getD k 0) m0 j) := by
  intro j
  induction j with
  | zero => intro _; rfl
  | succ j ih =>
    intro hj
    simp only [mLoopE, ih (by omega), mSumE]
    rw [sumTerms_ok l _ (j + 1) (j + 1) 1 (by omega)]
    show Except.ok (mLoopP (fun k => l.getD k 0) m0 j ++ _) =
      Except.ok (mLoopP (fun k => l.getD k 0) m0 j ++ _)
    have hsum : (∑ t ∈ Finset.range (j + 1),
          l.getD (1 + t) 0 * (mLoopP (fun k => l.getD k 0) m0 j).getD (j + 1 - (1 + t)) 0) =
        ∑ i ∈ Finset.range (j + 1),
          l.getD (i + 1) 0 * (mLoopP (fun k => l.getD k 0) m0 j).getD (j - i) 0 := by
      apply Finset.sum_congr rfl
      intro t _
      have h2 : j + 1 - (1 + t) = j - t := by omega
      have h1 : 1 + t = t + 1 := by omega
      rw [h2, h1]
    rw [hsum]

theorem mLoopE_oob (l : List ℚ) (m0 : ℚ) :
    ∀ j, l.length ≤ j → 1 ≤ l.length → mLoopE l m0 j = .error .indexError := by
  intro j
  induction j with
  | zero => intro h1 h2; omega
  | succ j ih =>
    intro h1 h2
    rcases Nat.lt_or_ge j l.length with hj | hj
    · simp only [mLoopE, mLoopE_ok l m0 j hj, mSumE]
      rw [sumTerms_oob l _ (j + 1) (j + 1) 1 (by omega) (by omega)]
    · simp only [mLoopE, ih hj h2]

theorem mLoopP_congr (pp1 pp2 : ℕ → ℚ) (m0 : ℚ) :
    ∀ j, (∀ k, k ≤ j → pp1 k = pp2 k) → mLoopP pp1 m0 j = mLoopP pp2 m0 j := by
  intro j
  induction j with
  | zero => intro _; rfl
  | succ j ih =>
    intro hk
    have hrec := ih fun k hkj => hk k (by omega)
    rw [mLoopP, mLoopP, hrec]
    congr 3
    apply Finset.sum_congr rfl
    intro t ht
    rw [hk (t + 1) (by have := Finset.mem_range.mp ht; omega)]

end ExplicitBridge

section CheckLemmas

theorem checkParams_split (h p fc : ℚ) (mean : Option ℚ) (hi : Option PyObj)
    (pmf : Option (List ℚ)) (hok : checkParams h p fc mean hi pmf = .ok ()) :
    ¬ h ≤ 0 ∧ ¬ p ≤ 0 ∧ ¬ fc ≤ 0 ∧ meanBad mean = false := by
  rw [checkParams.eq_def] at hok
  split_ifs at hok with h1 h2 h3 h4
  · exact ⟨h1, h2, h3, by simpa using h4⟩

theorem checkParams_none_of_ok (h p fc : ℚ) (mean : Option ℚ) (hi : Option PyObj)
    (pmf : Option (List ℚ)) (hok : checkParams h p fc mean hi pmf = .ok ()) :
    checkParams h p fc mean none none = .ok () := by
  obtain ⟨h1, h2, h3, h4⟩ := checkParams_split h p fc mean hi pmf hok
  rw [checkParams.eq_def, if_neg h1, if_neg h2, if_neg h3,
    if_neg (by simp [h4])]

theorem checkParams_dict_of_ok (h p fc : ℚ) (mean : Option ℚ) (hi : Option PyObj)
    (pmf : Option (List ℚ)) (d : List ℚ) (hok : checkParams h p fc mean hi pmf = .ok ()) :
    checkParams h p fc mean (some (.dict d)) none = .error .typeError := by
  obtain ⟨h1, h2, h3, h4⟩ := checkParams_split h p fc mean hi pmf hok
  rw [checkParams.eq_def, if_neg h1, if_neg h2, if_neg h3,
    if_neg (by simp [h4])]

theorem checkParams_explicit_ok (h p fc : ℚ) (mean : Option ℚ) (n : ℤ) (l : List ℚ)
    (hh : 0 < h) (hp : 0 < p) (hfc : 0 < fc) (hmean : meanBad mean = false) (hn : 0 ≤ n)
    (hlen : (l.length : ℤ) = n + 1) :
    checkParams h p fc mean (some (.int n)) (some l) = .ok () := by
  rw [checkParams.eq_def, if_neg (by linarith), if_neg (by linarith), if_neg (by linarith),
    if_neg (by simp [hmean])]
  show (if n < 0 then _ else _) = _
  rw [if_neg (by omega)]
  show (if (l.length : ℤ) = n + 1 then _ else _) = _
  rw [if_pos hlen]

theorem cost_poisson_drop_args (ext : NvExt) (s S : ℤ) (h p fc : ℚ) (mean : Option ℚ)
    (hi : Option PyObj) (pmf : Option (List ℚ))
    (hok : checkParams h p fc mean hi pmf = .ok ()) :
    s_s_cost_discrete ext s S h p fc true mean hi pmf =
      s_s_cost_discrete ext s S h p fc true mean none none := by
  rw [s_s_cost_discrete, s_s_cost_discrete, hok, checkParams_none_of_ok h p fc mean hi pmf hok]
  rfl

theorem cost_dict_typeError (ext : NvExt) (s S : ℤ) (h p fc : ℚ) (mean : Option ℚ)
    (hi : Option PyObj) (pmf : Option (List ℚ)) (d : List ℚ)
    (hok : checkParams h p fc mean hi pmf = .ok ()) :
    s_s_cost_discrete ext s S h p fc false mean (some (.dict d)) none = .error .typeError := by
  rw [s_s_cost_discrete, checkParams_dict_of_ok h p fc mean hi pmf d hok]

end CheckLemmas

section CostEval

theorem cost_poisson_eval (ext : NvExt) (s S : ℤ) (h p fc : ℚ) (mean : Option ℚ)
    (hs : s < S) (hok : checkParams h p fc mean none none = .ok ()) :
    s_s_cost_discrete ext s S h p fc true mean none none =
      .ok ((fc + ∑ d ∈ Finset.range (S - s).toNat,
          (mLoopP (ext.pmf mean) (1 / (1 - ext.pmf mean 0)) ((S - s).toNat - 1)).getD d 0 *
            ext.nv_cost (S - d) h p mean) /
        (MLoop (mLoopP (ext.pmf mean) (1 / (1 - ext.pmf mean 0)) ((S - s).toNat - 1))
            (S - s).toNat).getD (S - s).toNat 0) := by
  rw [s_s_cost_discrete, hok]
  show poissonCost ext s S h p fc mean = _
  rw [poissonCost.eq_def]
  rw [if_neg (by omega), if_neg (by omega)]

theorem cost_explicit_eval (ext : NvExt) (s S : ℤ) (h p fc : ℚ) (mean : Option ℚ) (n : ℤ)
    (l : List ℚ) (hh : 0 < h) (hp : 0 < p) (hfc : 0 < fc) (hmean : meanBad mean = false)
    (hs : s < S) (hn : 0 ≤ n)
    (hlen : (l.length : ℤ) = n + 1) (hp0 : l.getD 0 0 ≠ 1) (hK : S - s ≤ (l.length : ℤ)) :
    s_s_cost_discrete ext s S h p fc false mean (some (.int n)) (some l) =
      .ok ((fc + ∑ d ∈ Finset.range (S - s).toNat,
          (mLoopP (fun k => l.getD k 0) (1 / (1 - l.getD 0 0)) ((S - s).toNat - 1)).getD d 0 *
            ext.nvd_cost h p (pmfDict l n.toNat) (S - d)) /
        (MLoop (mLoopP (fun k => l.getD k 0) (1 / (1 - l.getD 0 0)) ((S - s).toNat - 1))
            (S - s).toNat).getD (S - s).toNat 0) := by
  rw [s_s_cost_discrete, checkParams_explicit_ok h p fc mean n l hh hp hfc hmean hn hlen]
  show explicitCost ext s S h p fc (some (.int n)) (some l) = _
  rw [explicitCost.eq_def]
  rw [if_neg (by omega)]
  show (if l.length = 0 then _ else _) = _
  rw [if_neg (by omega), if_neg hp0, if_neg (by omega)]
  rw [mLoopE_ok l (1 / (1 - l.getD 0 0)) ((S - s).toNat - 1) (by omega)]

end CostEval

theorem checkParams_poisson_ok (h p fc : ℚ) (mean : Option ℚ) (hh : 0 < h) (hp : 0 < p)
    (hfc : 0 < fc) (hmean : meanBad mean = false) :
    checkParams h p fc mean none none = .ok () := by
  rw [checkParams.eq_def, if_neg (by linarith), if_neg (by linarith), if_neg (by linarith),
    if_neg (by simp [hmean])]

/-- Claim C3: for a pmf of length `K ≥ 1` with `pmf 0 < 1`, the renewal arrays
built by `s_s_cost_discrete` (the `m` loop of lines 117-120 and the `M` loop of
lines 125-128, embedded as `mLoopP` and `MLoop`) satisfy `m 0 = 1/(1 - pmf 0)`,
`m j = m 0 * Σ_{l=1..j} pmf l * m (j-l)` for `1 ≤ j ≤ K-1`, `M 0 = 0`,
`M j - M (j-1) = m (j-1)` for `1 ≤ j ≤ K`, and in the edge case `K = 1` the
arrays are `[m 0]` and `[0, m 0]`. -/
theorem C3_renewal_arrays (pp : ℕ → ℚ) (K : ℕ) (hK : 1 ≤ K) (hpp0 : pp 0 < 1) :
    (mLoopP pp (1 / (1 - pp 0)) (K - 1)).length = K ∧
    (mLoopP pp (1 / (1 - pp 0)) (K - 1)).getD 0 0 = 1 / (1 - pp 0) ∧
    (∀ j, 1 ≤ j → j ≤ K - 1 →
      (mLoopP pp (1 / (1 - pp 0)) (K - 1)).getD j 0 =
        (mLoopP pp (1 / (1 - pp 0)) (K - 1)).getD 0 0 *
          ∑ l ∈ Finset.Icc 1 j, pp l * (mLoopP pp (1 / (1 - pp 0)) (K - 1)).getD (j - l) 0) ∧
    (MLoop (mLoopP pp (1 / (1 - pp 0)) (K - 1)) K).length = K + 1 ∧
    (MLoop (mLoopP pp (1 / (1 - pp 0)) (K - 1)) K).getD 0 0 = 0 ∧
    (∀ j, 1 ≤ j → j ≤ K →
      (MLoop (mLoopP pp (1 / (1 - pp 0)) (K - 1)) K).getD j 0 -
        (MLoop (mLoopP pp (1 / (1 - pp 0)) (K - 1)) K).getD (j - 1) 0 =
        (mLoopP pp (1 / (1 - pp 0)) (K - 1)).getD (j - 1) 0) ∧
    (K = 1 → mLoopP pp (1 / (1 - pp 0)) (K - 1) = [1 / (1 - pp 0)] ∧
      MLoop (mLoopP pp (1 / (1 - pp 0)) (K - 1)) K = [0, 1 / (1 - pp 0)]) := by
  refine ⟨?_, mLoopP_getD_zero pp _ (K - 1), ?_, MLoop_length _ K, MLoop_getD_zero _ K, ?_, ?_⟩
  · rw [mLoopP_length]; omega
  · intro j hj1 hj2
    obtain ⟨j0, rfl⟩ : ∃ j0, j = j0 + 1 := ⟨j - 1, by omega⟩
    rw [mLoopP_getD_le pp _ (j0 + 1) (j0 + 1) (K - 1) le_rfl (by omega)]
    rw [mLoopP_getD_last, mLoopP_getD_zero]
    congr 1
    rw [← Nat.Ico_succ_right, Finset.sum_Ico_eq_sum_range]
    apply Finset.sum_congr (by congr 1)
    intro t ht
    have h1 : 1 + t = t + 1 := by omega
    rw [h1]
    congr 1
    have hidx : j0 + 1 - (t + 1) = j0 - t := by omega
    rw [hidx, mLoopP_getD_le pp _ (j0 - t) j0 (K - 1) (Nat.sub_le _ _) (by omega)]
  · intro j hj1 hj2
    obtain ⟨j0, rfl⟩ : ∃ j0, j = j0 + 1 := ⟨j - 1, by omega⟩
    rw [MLoop_getD_le _ (j0 + 1) (j0 + 1) K le_rfl hj2]
    rw [MLoop_getD_last]
    rw [MLoop_getD_le _ (j0 + 1 - 1) j0 K (by omega) (by omega)]
    have hred : j0 + 1 - 1 = j0 := by omega
    rw [hred]
    ring
  · intro hK1
    subst hK1
    constructor
    · rfl
    · show [(0 : ℚ)] ++ [([(0 : ℚ)].getD 0 0 + [1 / (1 - pp 0)].getD 0 0)] = _
      norm_num

theorem C3_renewal_arrays_witness :
    (mLoopP (fun _ => (1 : ℚ) / 2) (1 / (1 - (1 : ℚ) / 2)) (3 - 1)).length = 3 :=
  (C3_renewal_arrays (fun _ => (1 : ℚ) / 2) 3 (by omega) (by decide)).1

theorem checkParams_nonpos (h p fc : ℚ) (mean : Option ℚ) (hi : Option PyObj)
    (pmf : Option (List ℚ)) (hbad : h ≤ 0 ∨ p ≤ 0 ∨ fc ≤ 0) :
    checkParams h p fc mean hi pmf = .error .validationError := by
  rw [checkParams.eq_def]
  split_ifs with h1 h2 h3 h4
  · rfl
  · rfl
  · rfl
  · rfl
  · rcases hbad with hb | hb | hb <;> linarith

theorem getD_take (l : List ℚ) (n i : ℕ) (h : i < n) : (l.take n).getD i 0 = l.getD i 0 := by
  rw [List.getD_eq_getElem?_getD, List.getD_eq_getElem?_getD, List.getElem?_take, if_pos h]

theorem cost_explicit_zeroDiv (ext : NvExt) (s S : ℤ) (h p fc : ℚ) (mean : Option ℚ) (n : ℤ)
    (l : List ℚ) (hh : 0 < h) (hp : 0 < p) (hfc : 0 < fc) (hmean : meanBad mean = false)
    (hn : 0 ≤ n) (hlen : (l.length : ℤ) = n + 1) (hp0 : l.getD 0 0 = 1) (hs : s < S) :
    s_s_cost_discrete ext s S h p fc false mean (some (.int n)) (some l) =
      .error .zeroDivisionError := by
  rw [s_s_cost_discrete, checkParams_explicit_ok h p fc mean n l hh hp hfc hmean hn hlen]
  show explicitCost ext s S h p fc (some (.int n)) (some l) = _
  rw [explicitCost.eq_def]
  rw [if_neg (by omega)]
  show (if l.length = 0 then _ else _) = _
  rw [if_neg (by omega), if_pos hp0]

theorem cost_explicit_oob (ext : NvExt) (s S : ℤ) (h p fc : ℚ) (mean : Option ℚ) (n : ℤ)
    (l : List ℚ) (hh : 0 < h) (hp : 0 < p) (hfc : 0 < fc) (hmean : meanBad mean = false)
    (hn : 0 ≤ n) (hlen : (l.length : ℤ) = n + 1) (hp0 : l.getD 0 0 ≠ 1)
    (hK : (l.length : ℤ) < S - s) :
    s_s_cost_discrete ext s S h p fc false mean (some (.int n)) (some l) =
      .error .indexError := by
  rw [s_s_cost_discrete, checkParams_explicit_ok h p fc mean n l hh hp hfc hmean hn hlen]
  show explicitCost ext s S h p fc (some (.int n)) (some l) = _
  rw [explicitCost.eq_def]
  rw [if_neg (by omega)]
  show (if l.length = 0 then _ else _) = _
  rw [if_neg (by omega), if_neg hp0, if_neg (by omega)]
  rw [mLoopE_oob l (1 / (1 - l.getD 0 0)) ((S - s).toNat - 1) (by omega) (by omega)]

/-- Claim C1: for every integer pair `s < S` with positive holding, stockout
and fixed costs, `s_s_cost_discrete` returns exactly
`(fixed_cost + Σ_{d=0}^{K-1} m d * single_period_cost (S - d)) / M K` with
`K = S - s` and `m`, `M` the renewal arrays built from the first `K` pmf
values — stated by refinement against `spec_policy_cost`, the formula written
from the specification text, for both the Poisson branch and the explicit-pmf
branch.  The pmf hypotheses (non-negative values, mass at zero below one, and
for the explicit branch a long-enough list) delimit the inputs on which the
source runs this success path with exception-free float arithmetic. -/
theorem C1_policy_cost_formula (ext : NvExt) (s S : ℤ) (h p fc : ℚ)
    (hs : s < S) (hh : 0 < h) (hp : 0 < p) (hfc : 0 < fc) :
    (∀ mean : Option ℚ, meanBad mean = false →
      (∀ k, 0 ≤ ext.pmf mean k) → ext.pmf mean 0 < 1 →
      s_s_cost_discrete ext s S h p fc true mean none none =
        .ok (spec_policy_cost (ext.pmf mean) (fun y => ext.nv_cost y h p mean) s S fc)) ∧
    (∀ (n : ℤ) (l : List ℚ), 0 ≤ n → (l.length : ℤ) = n + 1 →
      (∀ i, 0 ≤ l.getD i 0) → l.getD 0 0 < 1 → S - s ≤ (l.length : ℤ) →
      s_s_cost_discrete ext s S h p fc false none (some (.int n)) (some l) =
        .ok (spec_policy_cost (fun k => l.getD k 0)
          (fun y => ext.nvd_cost h p (pmfDict l n.toNat) y) s S fc)) := by
  constructor
  · intro mean hmean hnn hlt
    rw [cost_poisson_eval ext s S h p fc mean hs
      (checkParams_poisson_ok h p fc mean hh hp hfc hmean)]
    simp only [spec_policy_cost]
    congr 1
    congr 1
    · congr 1
      apply Finset.sum_congr rfl
      intro d hd
      rw [mLoopP_getD_spec (ext.pmf mean) ((S - s).toNat - 1) d
        (by have := Finset.mem_range.mp hd; omega)]
    · rw [MLoop_getD_spec (ext.pmf mean) ((S - s).toNat - 1) (S - s).toNat (by omega)
        (S - s).toNat le_rfl]
  · intro n l hn hlen hnn hlt hK
    rw [cost_explicit_eval ext s S h p fc none n l hh hp hfc rfl hs hn hlen (ne_of_lt hlt) hK]
    simp only [spec_policy_cost]
    congr 1
    congr 1
    · congr 1
      apply Finset.sum_congr rfl
      intro d hd
      rw [mLoopP_getD_spec (fun k => l.getD k 0) ((S - s).toNat - 1) d
        (by have := Finset.mem_range.mp hd; omega)]
    · rw [MLoop_getD_spec (fun k => l.getD k 0) ((S - s).toNat - 1) (S - s).toNat (by omega)
        (S - s).toNat le_rfl]

theorem C1_policy_cost_formula_witness :
    s_s_cost_discrete ext1 0 2 1 1 1 true none none none =
      .ok (spec_policy_cost (ext1.pmf none) (fun y => ext1.nv_cost y 1 1 none) 0 2 1) :=
  (C1_policy_cost_formula ext1 0 2 1 1 1 (by omega) (by norm_num) (by norm_num)
      (by norm_num)).1 none rfl
    (fun k => by show (0 : ℚ) ≤ ((1 : ℚ) / 2) ^ (k + 1); positivity)
    (by show ((1 : ℚ) / 2) ^ (0 + 1) < 1; norm_num)

/-- Claim C4 counterexample: at the concrete invalid input `s = S = 2` with
positive costs, `s_s_cost_discrete` passes all of its parameter asserts and
fails only later, inside the renewal-array construction, with an
`IndexError` — not with the `ValidationError` (assert failure) the claim
requires before any computation. -/
theorem C4_counterexample :
    s_s_cost_discrete extZ 2 2 1 1 1 false none (some (.int 0)) (some [1 / 2]) =
        .error .indexError ∧
      PyErr.indexError ≠ PyErr.validationError :=
  ⟨by rfl, by decide⟩

/-- Claim C4 amended: `s_s_cost_discrete` raises `ValidationError` (an assert
failure) before any computation whenever a cost parameter is non-positive,
but the source has no `s ≥ S` assert: for `s ≥ S` the call still returns no
cost value, failing instead during computation (`ValueError` from
`np.zeros` of a negative size, or `IndexError`, `TypeError` or
`ZeroDivisionError` while building the arrays). -/
theorem C4_amended (ext : NvExt) (s S : ℤ) (h p fc : ℚ) (up : Bool) (mean : Option ℚ)
    (hi : Option PyObj) (pmf : Option (List ℚ)) :
    (h ≤ 0 ∨ p ≤ 0 ∨ fc ≤ 0 →
      s_s_cost_discrete ext s S h p fc up mean hi pmf = .error .validationError) ∧
    (S ≤ s → ∀ v, s_s_cost_discrete ext s S h p fc up mean hi pmf ≠ .ok v) := by
  constructor
  · intro hbad
    rw [s_s_cost_discrete, checkParams_nonpos h p fc mean hi pmf hbad]
  · intro hSs v
    rw [s_s_cost_discrete]
    cases hcp : checkParams h p fc mean hi pmf with
    | error e => exact fun hcon => Except.noConfusion hcon
    | ok u =>
      cases u
      cases up
      · show explicitCost ext s S h p fc hi pmf ≠ .ok v
        rw [explicitCost.eq_def]
        cases pmf with
        | none =>
          dsimp only
          split_ifs <;> exact fun hcon => Except.noConfusion hcon
        | some l =>
          dsimp only
          split_ifs with h1 h2 h3 h4
          · exact fun hcon => Except.noConfusion hcon
          · exact fun hcon => Except.noConfusion hcon
          · exact fun hcon => Except.noConfusion hcon
          · exact fun hcon => Except.noConfusion hcon
          · omega
      · show poissonCost ext s S h p fc mean ≠ .ok v
        rw [poissonCost.eq_def]
        split_ifs with h1 h2
        · exact fun hcon => Except.noConfusion hcon
        · exact fun hcon => Except.noConfusion hcon
        · omega

theorem C4_amended_witness :
    s_s_cost_discrete extZ 0 1 (-1) 1 1 true none none none = .error .validationError ∧
      s_s_cost_discrete extZ 2 2 1 1 1 true none none none ≠ .ok 0 :=
  ⟨(C4_amended extZ 0 1 (-1) 1 1 true none none none).1 (Or.inl (by norm_num)),
    (C4_amended extZ 2 2 1 1 1 true none none none).2 (by omega) 0⟩

/-- Claim C5 counterexample: the pmf `[3/2, 0]` has mass at zero `3/2 ≥ 1`,
yet `s_s_cost_discrete` raises nothing at all — it returns the finite value
`-1/2` (negative and meaningless, built from `m 0 = 1/(1 - 3/2) = -2`).  No
`NumericalDomainError` exists in the source. -/
theorem C5_counterexample :
    s_s_cost_discrete extZ 0 1 1 1 1 false none (some (.int 1)) (some [3 / 2, 0]) =
      .ok (-(1 / 2)) := by
  rfl

/-- Claim C5 amended: the source never raises a `NumericalDomainError`.  When
the explicit pmf has mass exactly `1` at zero, the pure-Python division
`1.0 / (1 - pmf[0])` on line 118 raises an (uncaught) `ZeroDivisionError` —
the division by zero itself, not a guarded domain error; when the mass at
zero exceeds `1` the computation silently proceeds (see the
counterexample). -/
theorem C5_amended (ext : NvExt) (s S : ℤ) (h p fc : ℚ) (mean : Option ℚ) (n : ℤ)
    (l : List ℚ) (hh : 0 < h) (hp : 0 < p) (hfc : 0 < fc) (hmean : meanBad mean = false)
    (hn : 0 ≤ n) (hlen : (l.length : ℤ) = n + 1) (hp0 : l.getD 0 0 = 1) (hs : s < S) :
    s_s_cost_discrete ext s S h p fc false mean (some (.int n)) (some l) =
      .error .zeroDivisionError :=
  cost_explicit_zeroDiv ext s S h p fc mean n l hh hp hfc hmean hn hlen hp0 hs

theorem C5_amended_witness :
    s_s_cost_discrete extZ 0 1 1 1 1 false none (some (.int 1)) (some [1, 0]) =
      .error .zeroDivisionError :=
  C5_amended extZ 0 1 1 1 1 none 1 [1, 0] (by norm_num) (by norm_num) (by norm_num) rfl
    (by omega) (by decide) (by decide) (by omega)

/-- Claim C6 counterexample: with the supplied pmf `[1/2]` (demand_hi = 0)
and horizon `K = 2` exceeding its length, `s_s_cost_discrete` fails with an
uncaught `IndexError` from the pmf subscript on line 120 — not with the
`ConfigurationError` the claim names. -/
theorem C6_counterexample :
    s_s_cost_discrete extZ 0 2 1 1 1 false none (some (.int 0)) (some [1 / 2]) =
        .error .indexError ∧
      PyErr.indexError ≠ PyErr.configurationError :=
  ⟨by rfl, by decide⟩

/-- Claim C6 amended: the renewal construction reads only the first `K`
entries of the supplied pmf (truncating it does not change the `m` array),
and when `K` exceeds the length of the supplied sequence the computation
fails with an uncaught `IndexError` from the first out-of-range pmf
subscript, not with a `ConfigurationError`. -/
theorem C6_amended (ext : NvExt) (s S : ℤ) (h p fc : ℚ) (mean : Option ℚ) (n : ℤ)
    (l : List ℚ) :
    (∀ (m0 : ℚ) (K : ℕ),
      mLoopP (fun k => l.getD k 0) m0 (K - 1) =
        mLoopP (fun k => (l.take K).getD k 0) m0 (K - 1)) ∧
    (0 < h → 0 < p → 0 < fc → meanBad mean = false → 0 ≤ n →
      (l.length : ℤ) = n + 1 → l.getD 0 0 ≠ 1 → (l.length : ℤ) < S - s →
      s_s_cost_discrete ext s S h p fc false mean (some (.int n)) (some l) =
        .error .indexError) := by
  constructor
  · intro m0 K
    rcases Nat.eq_zero_or_pos K with hK | hK
    · subst hK
      rfl
    · apply mLoopP_congr
      intro k hk
      rw [getD_take l K k (by omega)]
  · intro hh hp hfc hmean hn hlen hp0 hK
    exact cost_explicit_oob ext s S h p fc mean n l hh hp hfc hmean hn hlen hp0 hK

theorem C6_amended_witness :
    s_s_cost_discrete extZ 0 3 1 1 1 false none (some (.int 0)) (some [1 / 2]) =
      .error .indexError :=
  (C6_amended extZ 0 3 1 1 1 none 0 [1 / 2]).2 (by norm_num) (by norm_num) (by norm_num) rfl
    (by omega) (by decide) (by decide) (by decide)

/-- Claim C9: in the explicit-pmf branch the dictionary handed to the
single-period cost collaborator (line 143,
`{n: demand_pmf[n] for n in range(demand_hi)}`) is built over the keys
`0..demand_hi-1` only: it has exactly `demand_hi` entries, each matching the
supplied pmf, so the supplied mass at the value `demand_hi` itself is never
forwarded — observably, whenever the horizon allows (`S - s ≤ demand_hi`),
changing the pmf entry at index `demand_hi` cannot change the result of
`s_s_cost_discrete` at all. -/
theorem C9_dict_excludes_hi (ext : NvExt) (h p fc : ℚ) (mean : Option ℚ) :
    (∀ (l : List ℚ) (n : ℕ), (pmfDict l n).length = n) ∧
    (∀ (l : List ℚ) (n i : ℕ), i < n → (pmfDict l n).getD i 0 = l.getD i 0) ∧
    (∀ (s S n : ℤ) (l1 l2 : List ℚ),
      0 < h → 0 < p → 0 < fc → meanBad mean = false → 0 ≤ n →
      (l1.length : ℤ) = n + 1 → (l2.length : ℤ) = n + 1 →
      l1.take n.toNat = l2.take n.toNat → s < S → S - s ≤ n →
      s_s_cost_discrete ext s S h p fc false mean (some (.int n)) (some l1) =
        s_s_cost_discrete ext s S h p fc false mean (some (.int n)) (some l2)) := by
  refine ⟨?_, ?_, ?_⟩
  · intro l n
    simp [pmfDict]
  · intro l n i hi
    rw [pmfDict, List.getD_eq_getElem?_getD, List.getElem?_map, List.getElem?_range hi]
    rfl
  · intro s S n l1 l2 hh hp hfc hmean hn hlen1 hlen2 htake hs hKn
    have hag : ∀ k : ℕ, (k : ℤ) < n → l1.getD k 0 = l2.getD k 0 := by
      intro k hk
      rw [← getD_take l1 n.toNat k (by omega), ← getD_take l2 n.toNat k (by omega), htake]
    have h0 : l1.getD 0 0 = l2.getD 0 0 := hag 0 (by omega)
    have hdict : pmfDict l1 n.toNat = pmfDict l2 n.toNat := by
      rw [pmfDict, pmfDict]
      apply List.map_congr_left
      intro a ha
      exact hag a (by have := List.mem_range.mp ha; omega)
    by_cases hp0 : l1.getD 0 0 = 1
    · rw [cost_explicit_zeroDiv ext s S h p fc mean n l1 hh hp hfc hmean hn hlen1 hp0 hs,
        cost_explicit_zeroDiv ext s S h p fc mean n l2 hh hp hfc hmean hn hlen2
          (by rw [← h0]; exact hp0) hs]
    · have hm : mLoopP (fun k => l1.getD k 0) (1 / (1 - l1.getD 0 0)) ((S - s).toNat - 1) =
          mLoopP (fun k => l2.getD k 0) (1 / (1 - l2.getD 0 0)) ((S - s).toNat - 1) := by
        rw [h0]
        apply mLoopP_congr
        intro k hk
        exact hag k (by omega)
      rw [cost_explicit_eval ext s S h p fc mean n l1 hh hp hfc hmean hs hn hlen1 hp0
          (by omega),
        cost_explicit_eval ext s S h p fc mean n l2 hh hp hfc hmean hs hn hlen2
          (by rw [← h0]; exact hp0) (by omega), hm, hdict]

theorem C9_dict_excludes_hi_witness :
    s_s_cost_discrete ext1e 0 1 1 1 1 false none (some (.int 1)) (some [1 / 2, 0]) =
      s_s_cost_discrete ext1e 0 1 1 1 1 false none (some (.int 1)) (some [1 / 2, 1 / 3]) :=
  (C9_dict_excludes_hi ext1e 1 1 1 none).2.2 0 1 1 [1 / 2, 0] [1 / 2, 1 / 3] (by norm_num)
    (by norm_num) (by norm_num) rfl (by omega) (by decide) (by decide) (by decide) (by omega)
    (by omega)

theorem exact_explicit_no_ok (ext : NvExt) (h p fc : ℚ) (mean : Option ℚ)
    (hi : Option PyObj) (pmf : Option (List ℚ)) (fuel : ℕ) :
    ∀ t, s_s_discrete_exact ext h p fc false mean hi pmf fuel ≠ .ok t := by
  intro t
  rw [s_s_discrete_exact.eq_def]
  cases hcp : checkParams h p fc mean hi pmf with
  | error e => exact fun hcon => Except.noConfusion hcon
  | ok u =>
    cases u
    dsimp only
    rw [if_neg (show ¬(false = true) from by decide)]
    cases hi with
    | none => exact fun hcon => Except.noConfusion hcon
    | some obj =>
      cases obj with
      | dict d => exact fun hcon => Except.noConfusion hcon
      | int n =>
        cases pmf with
        | none => exact fun hcon => Except.noConfusion hcon
        | some l =>
          dsimp only
          cases hbr : bracketLoop ext h p fc false mean (some (.int n)) (some l)
              (pmfDict l (n + 1).toNat) ((ext.nvd_opt h p (pmfDict l (n + 1).toNat)).1)
              ((ext.nvd_opt h p (pmfDict l (n + 1).toNat)).1) fuel with
          | error e => exact fun hcon => Except.noConfusion hcon
          | ok s0 =>
            dsimp only
            rw [cost_dict_typeError ext s0 ((ext.nvd_opt h p (pmfDict l (n + 1).toNat)).1)
              h p fc mean (some (.int n)) (some l) (pmfDict l (n + 1).toNat) hcp]
            exact fun hcon => Except.noConfusion hcon

/-- Claim C10: with `use_poisson = False`, `s_s_discrete_exact` computes its
initial incumbent cost (lines 256-258) by passing `demand_pmf_dict`
positionally into the `demand_hi` parameter of `s_s_cost_discrete` and
nothing into `demand_pmf`; the callee then evaluates `demand_hi >= 0` on a
dictionary, which raises `TypeError` in Python 3, so the search fails before
the expansion loop — the explicit branch can never return a policy triple.
Conjunct one: no explicit-branch call returns `.ok`.  Conjunct two: any
initial-incumbent-shaped call (a `dict` in the `demand_hi` slot, `none` for
`demand_pmf`) fails with exactly `TypeError` whenever the outer validation
passed. -/
theorem C10_initial_incumbent_bug (ext : NvExt) (h p fc : ℚ) (mean : Option ℚ)
    (hi : Option PyObj) (pmf : Option (List ℚ)) (fuel : ℕ) :
    (∀ t, s_s_discrete_exact ext h p fc false mean hi pmf fuel ≠ .ok t) ∧
    (∀ (d : List ℚ) (s0 S0 : ℤ), checkParams h p fc mean hi pmf = .ok () →
      s_s_cost_discrete ext s0 S0 h p fc false mean (some (.dict d)) none =
        .error .typeError) :=
  ⟨exact_explicit_no_ok ext h p fc mean hi pmf fuel,
    fun d s0 S0 hok => cost_dict_typeError ext s0 S0 h p fc mean hi pmf d hok⟩

theorem C10_initial_incumbent_bug_witness :
    s_s_cost_discrete ext1e 0 1 1 1 1 false none (some (.dict [1 / 4, 1 / 2, 1 / 4])) none =
      .error .typeError :=
  (C10_initial_incumbent_bug ext1e 1 1 1 none (some (.int 2)) (some [1 / 4, 1 / 2, 1 / 4])
    20).2 [1 / 4, 1 / 2, 1 / 4] 0 1 (by rfl)

/-- Claim C2, evaluation at the failing input: an explicit-pmf demand model
with the genuinely quasi-convex single-period cost `g y = |y - 1|` (bundled
in `ext1e`) and pmf `[1/4, 1/2, 1/4]`.  Instead of returning the optimal
policy triple, `s_s_discrete_exact` finds `y_star = 1`, brackets `s_0 = 0`
after one step, and then dies with `TypeError` at the initial-incumbent cost
call of lines 256-258, before the expansion loop. -/
theorem C2_failing_input_eval :
    s_s_discrete_exact ext1e 1 1 1 false none (some (.int 2)) (some [1 / 4, 1 / 2, 1 / 4])
      20 = .error .typeError := by
  rfl

theorem ext0_cost_val (s1 : ℤ) (hs : s1 ≤ -1) :
    s_s_cost_discrete ext0 s1 0 1 1 1 true none none none =
      .ok (1 /
        (MLoop (mLoopP (ext0.pmf none) (1 / (1 - ext0.pmf none 0)) ((0 - s1).toNat - 1))
            (0 - s1).toNat).getD (0 - s1).toNat 0) := by
  rw [cost_poisson_eval ext0 s1 0 1 1 1 none (by omega) rfl]
  have hz : (∑ d ∈ Finset.range (0 - s1).toNat,
      (mLoopP (ext0.pmf none) (1 / (1 - ext0.pmf none 0)) ((0 - s1).toNat - 1)).getD d 0 *
        ext0.nv_cost (0 - d) 1 1 none) = 0 := by
    apply Finset.sum_eq_zero
    intro d hd
    show _ * (if ((0 : ℤ) - d = 1) then (5 : ℚ) else 0) = 0
    rw [if_neg (by omega)]
    ring
  rw [hz, add_zero]

theorem ext0_M_pos (K : ℕ) (hK : 1 ≤ K) :
    0 < (MLoop (mLoopP (ext0.pmf none) (1 / (1 - ext0.pmf none 0)) (K - 1)) K).getD K 0 := by
  apply MLoop_getD_K_pos _ (1 / (1 - ext0.pmf none 0))
  · show (0 : ℚ) < 1 / (1 - ((1 : ℚ) / 2) ^ (0 + 1))
    norm_num
  · intro i
    apply mLoopP_getD_nonneg
    · intro k
      show (0 : ℚ) ≤ ((1 : ℚ) / 2) ^ (k + 1)
      positivity
    · show (0 : ℚ) ≤ 1 / (1 - ((1 : ℚ) / 2) ^ (0 + 1))
      norm_num
  · exact mLoopP_getD_zero _ _ (K - 1)
  · exact hK

theorem ext0_bracket_stuck : ∀ (fuel : ℕ) (s : ℤ), s ≤ 0 →
    bracketLoop ext0 1 1 1 true none none none [] 0 s fuel = .error .fuel := by
  intro fuel
  induction fuel with
  | zero => intro s _; rfl
  | succ f ih =>
    intro s hs
    rw [bracketLoop]
    rw [ext0_cost_val (s - 1) (by omega)]
    dsimp only
    rw [if_neg, ih (s - 1) (by omega)]
    have hg : gOne ext0 true 1 1 none [] (s - 1) = 0 := by
      show (if ((s : ℤ) - 1 = 1) then (5 : ℚ) else 0) = 0
      rw [if_neg (by omega)]
    rw [hg]
    have hM := ext0_M_pos (0 - (s - 1)).toNat (by omega)
    have hpos : (0 : ℚ) < 1 /
        (MLoop (mLoopP (ext0.pmf none) (1 / (1 - ext0.pmf none 0)) ((0 - (s - 1)).toNat - 1))
            (0 - (s - 1)).toNat).getD (0 - (s - 1)).toNat 0 :=
      div_pos one_pos hM
    linarith

theorem ext0_search_stuck (fuel : ℕ) :
    s_s_discrete_exact ext0 1 1 1 true none none none fuel = .error .fuel := by
  have h1 : s_s_discrete_exact ext0 1 1 1 true none none none fuel =
      match bracketLoop ext0 1 1 1 true none none none [] 0 0 fuel with
      | .error e => .error e
      | .ok s0 =>
        match s_s_cost_discrete ext0 s0 0 1 1 1 true none none none with
        | .error e => .error e
        | .ok g0 => expandLoop ext0 1 1 1 true none none none [] fuel s0 s0 0 g0 1 fuel :=
    rfl
  rw [h1, ext0_bracket_stuck fuel 0 le_rfl]

/-- Claim C7 counterexample: `s_s_discrete_exact` has no iteration cap.
Against the malformed collaborator bundle `ext0` (a single-period cost with
an isolated spike at 1, violating quasi-convexity) the bracket loop is still
running after 100000 iterations and no `AlgorithmError` has been raised. -/
theorem C7_counterexample :
    s_s_discrete_exact ext0 1 1 1 true none none none 100000 = .error .fuel ∧
      PyErr.fuel ≠ PyErr.algorithmError :=
  ⟨ext0_search_stuck 100000, by decide⟩

/-- Claim C7 amended: the source imposes no defensive bound on its search
iterations and never raises an `AlgorithmError`; with a demand model that
violates the assumed quasi-convexity (the concrete malformed bundle `ext0`)
its bracket loop never meets its stopping condition, so the search loops
forever — for every fuel the embedding returns the fuel-exhaustion marker. -/
theorem C7_amended (fuel : ℕ) :
    s_s_discrete_exact ext0 1 1 1 true none none none fuel = .error .fuel :=
  ext0_search_stuck fuel

theorem C7_amended_witness :
    s_s_discrete_exact ext0 1 1 1 true none none none 7 = .error .fuel :=
  C7_amended 7

theorem expandLoop_inv (ext : NvExt) (h p fc : ℚ) (up : Bool) (mean : Option ℚ)
    (hi : Option PyObj) (pmf : Option (List ℚ)) (dict : List ℚ) (fi : ℕ) :
    ∀ (f : ℕ) (s shat Shat : ℤ) (ghat : ℚ) (S a b : ℤ) (c : ℚ),
      s_s_cost_discrete ext shat Shat h p fc up mean hi pmf = .ok ghat →
      expandLoop ext h p fc up mean hi pmf dict fi s shat Shat ghat S f = .ok (a, b, c) →
      s_s_cost_discrete ext a b h p fc up mean hi pmf = .ok c := by
  intro f
  induction f with
  | zero =>
    intro s shat Shat ghat S a b c hinv hrun
    exact Except.noConfusion hrun
  | succ f ih =>
    intro s shat Shat ghat S a b c hinv hrun
    rw [expandLoop] at hrun
    by_cases hgS : gOne ext up h p mean dict S ≤ ghat
    · rw [if_pos hgS] at hrun
      cases hc : s_s_cost_discrete ext shat S h p fc up mean hi pmf with
      | error e => rw [hc] at hrun; exact Except.noConfusion hrun
      | ok cv =>
        rw [hc] at hrun
        dsimp only at hrun
        by_cases himp : cv < ghat
        · rw [if_pos himp] at hrun
          cases hadv : sAdvance ext h p fc up mean hi pmf dict S s fi with
          | error e => rw [hadv] at hrun; exact Except.noConfusion hrun
          | ok s2 =>
            rw [hadv] at hrun
            dsimp only at hrun
            cases hc2 : s_s_cost_discrete ext s2 S h p fc up mean hi pmf with
            | error e => rw [hc2] at hrun; exact Except.noConfusion hrun
            | ok g2 =>
              rw [hc2] at hrun
              dsimp only at hrun
              exact ih s2 s2 S g2 (S + 1) a b c hc2 hrun
        · rw [if_neg himp] at hrun
          exact ih s shat Shat ghat (S + 1) a b c hinv hrun
    · rw [if_neg hgS] at hrun
      rw [Except.ok.injEq, Prod.mk.injEq, Prod.mk.injEq] at hrun
      obtain ⟨rfl, rfl, rfl⟩ := hrun
      exact hinv

/-- Claim C8: whenever `s_s_discrete_exact` returns a triple `(s, S, g)`,
calling `s_s_cost_discrete` with that `s`, that `S`, the same cost
parameters and the same demand-model arguments returns exactly `g`.  In the
Poisson branch the incumbent cost is recomputed from the incumbent pair at
every update (and the argument slip of lines 256-258 is harmless there,
since `demand_pmf_dict` is `None`); the explicit branch never returns a
triple at all, so the statement holds for every input of the source
function. -/
theorem C8_search_cost_consistency (ext : NvExt) (h p fc : ℚ) (up : Bool)
    (mean : Option ℚ) (hi : Option PyObj) (pmf : Option (List ℚ)) (fuel : ℕ)
    (s S : ℤ) (g : ℚ)
    (hrun : s_s_discrete_exact ext h p fc up mean hi pmf fuel = .ok (s, S, g)) :
    s_s_cost_discrete ext s S h p fc up mean hi pmf = .ok g := by
  cases up
  · exact absurd hrun (exact_explicit_no_ok ext h p fc mean hi pmf fuel (s, S, g))
  · rw [s_s_discrete_exact.eq_def] at hrun
    cases hcp : checkParams h p fc mean hi pmf with
    | error e => rw [hcp] at hrun; exact Except.noConfusion hrun
    | ok u =>
      cases u
      rw [hcp] at hrun
      dsimp only at hrun
      rw [if_pos (show (true : Bool) = true from rfl)] at hrun
      dsimp only at hrun
      cases hbr : bracketLoop ext h p fc true mean hi pmf [] ((ext.nv_opt h p mean).1)
          ((ext.nv_opt h p mean).1) fuel with
      | error e => rw [hbr] at hrun; exact Except.noConfusion hrun
      | ok s0 =>
        rw [hbr] at hrun
        dsimp only at hrun
        cases hg0 : s_s_cost_discrete ext s0 ((ext.nv_opt h p mean).1) h p fc true mean
            none none with
        | error e => rw [hg0] at hrun; exact Except.noConfusion hrun
        | ok g0 =>
          rw [hg0] at hrun
          dsimp only at hrun
          have hinv : s_s_cost_discrete ext s0 ((ext.nv_opt h p mean).1) h p fc true mean
              hi pmf = .ok g0 := by
            rw [cost_poisson_drop_args ext s0 ((ext.nv_opt h p mean).1) h p fc mean hi pmf
              hcp]
            exact hg0
          exact expandLoop_inv ext h p fc true mean hi pmf [] fuel fuel s0 s0
            ((ext.nv_opt h p mean).1) g0 ((ext.nv_opt h p mean).1 + 1) s S g hinv hrun

theorem C8_search_cost_consistency_witness :
    s_s_cost_discrete ext1 0 1 1 1 1 true none none none = .ok (1 / 2) :=
  C8_search_cost_consistency ext1 1 1 1 true none none none 5 0 1 (1 / 2) (by rfl)

end Stockpyl
